import Mathlib

/-!
Shallow embedding of the meeting-backend core: the identifier generators,
the meeting-lifecycle HTTP handlers with their dual-backend persistence
(Firestore collection plus the volatile inMemoryRooms map), and the
socket-side connection registry with its join-room, signal and
send-message handlers. Every definition is translated from the server
source (src/unnamed/part_001 and its near-duplicate src/unnamed/part_002;
the Meeting model bundled in src/test2.js). Timestamps are modelled as
natural numbers, Math.random outcomes as explicit index streams, and the
availability of the authoritative Firebase store during a request as an
explicit boolean parameter: a Firebase call throws exactly when that flag
is false, and Meeting.update additionally throws when the record carries
no Firestore document id (db.collection(..).doc(undefined)).
-/

namespace MeetingBackend

/-- Participant record embedded in a Meeting. The create handler sets
cameraOn and micOn, the join handler omits them, so both are optional
here. leftAt unset (none) means the participant is active, mirroring the
JS truthiness test (!p.leftAt). -/
structure Participant where
  userId : String
  userName : String
  joinedAt : Nat
  leftAt : Option Nat
  isHost : Bool
  cameraOn : Option Bool
  micOn : Option Bool
deriving Repr, DecidableEq

/-- Meeting settings, fixed at creation. An empty password string means
no password, matching the JS expression (password or empty string) at
creation and the truthiness guard (meeting.settings.password) at join. -/
structure Settings where
  password : String
  maxParticipants : Nat
  recordingEnabled : Bool
  waitingRoom : Bool
  muteOnJoin : Bool
  videoOnJoin : Bool
  chatEnabled : Bool
  screenShareEnabled : Bool
deriving Repr, DecidableEq

/-- Durable Meeting record. createdAt is optional because the
create-handler fallback object stored into inMemoryRooms carries no
createdAt field, while Meeting.create always adds one. -/
structure Meeting where
  roomCode : String
  meetingId : String
  roomName : String
  hostUserId : String
  hostName : String
  participants : List Participant
  settings : Settings
  isActive : Bool
  startTime : Nat
  endTime : Option Nat
  isInstant : Bool
  createdAt : Option Nat
deriving Repr, DecidableEq

/-- Dual-backend persistent state: fs is the Firestore meetings
collection as a document list (docId, data) in insertion order, and mem
is the module-level inMemoryRooms map as an association list keyed by
room code. -/
structure Store where
  fs : List (String × Meeting)
  mem : List (String × Meeting)
deriving Repr, DecidableEq

/-- Meeting.getByRoomCode from the bundled model: the first document
whose data has the requested roomCode, or none when the query snapshot
is empty. -/
def getByRoomCode (fs : List (String × Meeting)) (rc : String) :
    Option (String × Meeting) :=
  fs.find? (fun d => d.2.roomCode == rc)

/-- Lookup in the inMemoryRooms map (Map.get keyed by room code). -/
def memGet (mem : List (String × Meeting)) (rc : String) : Option Meeting :=
  (mem.find? (fun e => e.1 == rc)).map (fun e => e.2)

/-- Map.set on inMemoryRooms: replace the binding when the key is
present, otherwise append a fresh binding. -/
def memSet (mem : List (String × Meeting)) (rc : String) (m : Meeting) :
    List (String × Meeting) :=
  if (mem.find? (fun e => e.1 == rc)).isSome then
    mem.map (fun e => if e.1 == rc then (e.1, m) else e)
  else
    mem ++ [(rc, m)]

/-- Mutation of the shared record object held by inMemoryRooms (JS
objects are aliased, so pushing onto room.participants rewrites the
stored record in place). -/
def memUpdate (mem : List (String × Meeting)) (rc : String)
    (f : Meeting → Meeting) : List (String × Meeting) :=
  mem.map (fun e => if e.1 == rc then (e.1, f e.2) else e)

/-- Map.delete on inMemoryRooms. -/
def memErase (mem : List (String × Meeting)) (rc : String) :
    List (String × Meeting) :=
  mem.filter (fun e => !(e.1 == rc))

/-- Meeting.update applied to the document with the given Firestore id. -/
def fsUpdate (fs : List (String × Meeting)) (did : String)
    (f : Meeting → Meeting) : List (String × Meeting) :=
  fs.map (fun d => if d.1 == did then (d.1, f d.2) else d)

/-- Active participant count: the live filter over leftAt that every
handler recomputes (participants.filter(p not leftAt).length). -/
def activeCount (m : Meeting) : Nat :=
  (m.participants.filter (fun p => p.leftAt.isNone)).length

/-- Shared lookup ladder of the join, end and get handlers: try
Meeting.getByRoomCode when Firebase is reachable (a thrown error is
swallowed and leaves the local variable null), then fall back to
inMemoryRooms. The first component records the Firestore document id
when the record came from the authoritative store (the fallback object
has no id field). -/
def locateMeeting (st : Store) (fb : Bool) (rc : String) :
    Option (Option String × Meeting) :=
  match (if fb then getByRoomCode st.fs rc else none) with
  | some (did, m) => some (some did, m)
  | none => (memGet st.mem rc).map (fun m => (none, m))

/-! Lifecycle HTTP handlers. Each handler takes the store, the
per-request Firebase availability flag fb, the request fields, and the
identifiers and timestamp the runtime would draw, and returns the HTTP
outcome paired with the updated store. -/

/-- Result of POST /api/room/create. -/
inductive CreateRes where
  | badRequest
  | created (roomCode meetingId userId : String) (settings : Settings)
deriving Repr, DecidableEq

/-- Result of POST /api/room/join. -/
inductive JoinRes where
  | badRequest
  | notFound
  | unauthorized
  | forbidden
  | joined (userId : String) (settings : Settings) (roomName hostName : String)
deriving Repr, DecidableEq

/-- Result of POST /api/room/end. -/
inductive EndRes where
  | notFound
  | forbidden
  | ended
deriving Repr, DecidableEq

/-- Result of POST /api/room/leave: every non-throwing path of the
handler answers success true. -/
inductive LeaveRes where
  | success
deriving Repr, DecidableEq

/-- Result of GET /api/room/:roomCode (the fields the claims read). -/
inductive GetRes where
  | notFound
  | found (participantCount maxParticipants : Nat)
      (isPasswordProtected : Bool) (settings : Settings)
deriving Repr, DecidableEq

/-- Model of String.prototype.trim: drop whitespace characters from
both ends (computable by structural recursion on the character list). -/
def jsTrim (s : String) : String :=
  ⟨((s.data.dropWhile Char.isWhitespace).reverse.dropWhile
      Char.isWhitespace).reverse⟩

/-- Settings object built by the create handler: password or empty
string, maxParticipants 100, and the fixed feature flags. -/
def defaultSettings (password : Option String) : Settings :=
  { password := password.getD ""
    maxParticipants := 100
    recordingEnabled := false
    waitingRoom := false
    muteOnJoin := false
    videoOnJoin := true
    chatEnabled := true
    screenShareEnabled := true }

/-- Initial participant pushed by the create handler. -/
def hostParticipant (userId username : String) (now : Nat) : Participant :=
  { userId := userId
    userName := jsTrim username
    joinedAt := now
    leftAt := none
    isHost := true
    cameraOn := some true
    micOn := some true }

/-- Participant object pushed by the join handler (no camera or mic
fields, isHost false). -/
def newJoinParticipant (userId username : String) (now : Nat) : Participant :=
  { userId := userId
    userName := username
    joinedAt := now
    leftAt := none
    isHost := false
    cameraOn := none
    micOn := none }

/-- POST /api/room/create. Validates roomName and username (JS
truthiness: the empty string is missing), builds the meeting, and calls
Meeting.create; when that throws (fb false) the record is stored into
inMemoryRooms instead, with explicit isActive and startTime and without
a createdAt field. The generated roomCode, meetingId, userId and the
Firestore docId are passed in as parameters of the random draws. -/
def createHandler (st : Store) (fb : Bool) (roomName username : String)
    (password : Option String) (isInstant : Bool)
    (roomCode meetingId userId docId : String) (now : Nat) :
    CreateRes × Store :=
  if roomName == "" || username == "" then (.badRequest, st)
  else
    let settings := defaultSettings password
    let base : Meeting :=
      { roomCode := roomCode
        meetingId := meetingId
        roomName := jsTrim roomName
        hostUserId := userId
        hostName := jsTrim username
        participants := [hostParticipant userId username now]
        settings := settings
        isActive := true
        startTime := now
        endTime := none
        isInstant := isInstant
        createdAt := none }
    if fb then
      (.created roomCode meetingId userId settings,
        { st with fs := st.fs ++ [(docId, { base with createdAt := some now })] })
    else
      (.created roomCode meetingId userId settings,
        { st with mem := memSet st.mem roomCode base })

/-- POST /api/room/join. Lookup ladder, isActive gate, password gate
(settings.password truthy and not equal to the supplied password),
capacity gate (live activeCount at least maxParticipants), then the
participant push. When the record came from Firestore the subsequent
Meeting.update succeeds and rewrites that document. When it came from
inMemoryRooms the push already mutated the shared record object, the
update call throws (fb false, or the record has no document id), and
the catch block pushes the same participant object onto the same shared
array a second time. -/
def joinHandler (st : Store) (fb : Bool) (roomCode username : String)
    (password : Option String) (userId : String) (now : Nat) :
    JoinRes × Store :=
  if roomCode == "" || username == "" then (.badRequest, st)
  else
    match locateMeeting st fb roomCode with
    | none => (.notFound, st)
    | some (docId, m) =>
      if !m.isActive then (.notFound, st)
      else if !(m.settings.password == "") && !(some m.settings.password == password) then
        (.unauthorized, st)
      else if activeCount m ≥ m.settings.maxParticipants then (.forbidden, st)
      else
        let p := newJoinParticipant userId username now
        match docId with
        | some did =>
          let fs1 := fsUpdate st.fs did
            (fun mm => { mm with participants := m.participants ++ [p] })
          (.joined userId m.settings m.roomName m.hostName, { st with fs := fs1 })
        | none =>
          let mem1 := memUpdate st.mem roomCode
            (fun mm => { mm with participants := m.participants ++ [p, p] })
          (.joined userId m.settings m.roomName m.hostName, { st with mem := mem1 })

/-- POST /api/room/end. Lookup ladder, host check against hostUserId,
then Meeting.update(isActive false, endTime now); when that throws (fb
false or no document id) the catch deletes the inMemoryRooms record. -/
def endHandler (st : Store) (fb : Bool) (roomId userId : String)
    (now : Nat) : EndRes × Store :=
  match locateMeeting st fb roomId with
  | none => (.notFound, st)
  | some (docId, m) =>
    if !(m.hostUserId == userId) then (.forbidden, st)
    else
      match docId with
      | some did =>
        let fs1 := fsUpdate st.fs did
          (fun mm => { mm with isActive := false, endTime := some now })
        (.ended, { st with fs := fs1 })
      | none => (.ended, { st with mem := memErase st.mem roomId })

/-- Sets leftAt on the first participant whose userId matches, exactly
as participants.find followed by the leftAt assignment does. -/
def setLeftFirst : List Participant → String → Nat → List Participant
  | [], _, _ => []
  | p :: ps, uid, now =>
    if p.userId == uid then { p with leftAt := some now } :: ps
    else p :: setLeftFirst ps uid now

/-- POST /api/room/leave. The whole authoritative path sits in one try
block: when Firebase is reachable the handler reads the Firestore
record, stamps leftAt on the found participant and persists it, then
recomputes the live count and, at zero, issues the termination update.
When Firebase throws (fb false) the catch runs the same steps against
the inMemoryRooms record, deleting it outright at count zero. Every
non-throwing path, including unknown room and unknown participant,
responds success. -/
def leaveHandler (st : Store) (fb : Bool) (roomId userId : String)
    (now : Nat) : LeaveRes × Store :=
  if fb then
    match getByRoomCode st.fs roomId with
    | none => (.success, st)
    | some (did, m) =>
      let found := m.participants.any (fun p => p.userId == userId)
      let m1 := if found then
          { m with participants := setLeftFirst m.participants userId now }
        else m
      let st1 := if found then
          { st with fs :=
              fsUpdate st.fs did (fun mm => { mm with participants := m1.participants }) }
        else st
      if activeCount m1 == 0 then
        let fs2 := fsUpdate st1.fs did
          (fun mm => { mm with isActive := false, endTime := some now })
        (.success, { st1 with fs := fs2 })
      else (.success, st1)
  else
    match memGet st.mem roomId with
    | none => (.success, st)
    | some m =>
      let found := m.participants.any (fun p => p.userId == userId)
      let m1 := if found then
          { m with participants := setLeftFirst m.participants userId now }
        else m
      let st1 := if found then
          { st with mem :=
              memUpdate st.mem roomId (fun mm => { mm with participants := m1.participants }) }
        else st
      if activeCount m1 == 0 then
        (.success, { st1 with mem := memErase st1.mem roomId })
      else (.success, st1)

/-- GET /api/room/:roomCode. Lookup ladder, then 404 when the record is
missing or inactive, else the summary projection. -/
def getHandler (st : Store) (fb : Bool) (roomCode : String) : GetRes :=
  match locateMeeting st fb roomCode with
  | none => .notFound
  | some (_, m) =>
    if !m.isActive then .notFound
    else .found (activeCount m) m.settings.maxParticipants
      (!(m.settings.password == "")) m.settings

/-! Socket-side connection registry and relay handlers. A Socket mirrors
the per-connection object: its id, the userId and userData fields that
the join-room handler assigns (none before any join-room), and the room
index mirrors io.sockets.adapter.rooms as an association list from room
id to the member socket ids in insertion order. -/

/-- Live connection state. userData is the opaque display payload,
modelled as key-value pairs. -/
structure Socket where
  sid : String
  userId : Option String
  userData : List (String × String)
deriving Repr, DecidableEq

/-- Connection registry: the socket table and the room membership
index. -/
structure Registry where
  sockets : List Socket
  rooms : List (String × List String)
deriving Repr, DecidableEq

/-- io.sockets.sockets.get. -/
def getSocket (reg : Registry) (sid : String) : Option Socket :=
  reg.sockets.find? (fun s => s.sid == sid)

/-- Array.from(io.sockets.adapter.rooms.get(roomId) or []). -/
def roomMembers (reg : Registry) (roomId : String) : List String :=
  match reg.rooms.find? (fun e => e.1 == roomId) with
  | some e => e.2
  | none => []

/-- socket.join(roomId): adds the socket id to the room set (a no-op
when already a member, Set semantics). -/
def addToRoom (rooms : List (String × List String)) (roomId sid : String) :
    List (String × List String) :=
  match rooms.find? (fun e => e.1 == roomId) with
  | some _ =>
    rooms.map (fun e =>
      if e.1 == roomId then
        (e.1, if e.2.contains sid then e.2 else e.2 ++ [sid]) else e)
  | none => rooms ++ [(roomId, [sid])]

/-- The identity assignment of the join-room handler: socket.userId and
socket.userData are overwritten (last write wins on a repeated join). -/
def bindIdentity (reg : Registry) (sid uid : String)
    (ud : List (String × String)) : Registry :=
  { reg with sockets := reg.sockets.map (fun s =>
      if s.sid == sid then { s with userId := some uid, userData := ud } else s) }

/-- Registry transition of the join-room handler: socket.join(roomId)
then the identity assignment. -/
def joinRoomReg (reg : Registry) (sid roomId uid : String)
    (ud : List (String × String)) : Registry :=
  { bindIdentity reg sid uid ud with rooms := addToRoom reg.rooms roomId sid }

/-- Socket ids contributing to the room-users snapshot: the room
members minus the querying socket (clients.filter(id not equal to
socket.id)). -/
def memberSourceIds (reg : Registry) (roomId sid : String) : List String :=
  (roomMembers reg roomId).filter (fun id => !(id == sid))

/-- Room-users snapshot sent to the joiner, as built by the join-room
handler of the part_002 server variant: map each other member to its
bound userId and userData through the optional-chain lookup, then
filter(user => user.userId), which drops entries whose userId is
undefined or the empty string (JS truthiness). -/
def membersOf (reg : Registry) (roomId sid : String) :
    List (Option String × List (String × String)) :=
  (((memberSourceIds reg roomId sid).map (fun id =>
      match getSocket reg id with
      | some s => (s.userId, s.userData)
      | none => ((none : Option String), ([] : List (String × String))))).filter
    (fun u => !(u.1.getD "" == "")))

/-- Full join-room handler: updated registry, the user-connected
broadcast targets (the other room members), and the room-users snapshot
computed on the post-join registry. -/
def joinRoomHandler (reg : Registry) (sid roomId uid : String)
    (ud : List (String × String)) :
    Registry × List String × List (Option String × List (String × String)) :=
  let reg1 := joinRoomReg reg sid roomId uid ud
  (reg1, memberSourceIds reg1 roomId sid, membersOf reg1 roomId sid)

/-- Payload of the signal event. claimedUserId models any extra
identity field a client might place in the JSON payload: the handler
destructures only roomId, targetUserId and signal and never reads it. -/
structure SignalPayload where
  roomId : String
  targetUserId : Option String
  signal : String
  claimedUserId : Option String
deriving Repr, DecidableEq

/-- A unicast delivery of the signal event: recipient socket id, the
userId field of the emitted object, and the opaque payload. -/
structure Delivery where
  toSid : String
  fromUserId : Option String
  payload : String
deriving Repr, DecidableEq

/-- Signal handler: scan the room for the first member whose bound
userId strictly equals targetUserId; deliver the payload together with
the sender socket.userId to that one socket, or drop silently. -/
def signalHandler (reg : Registry) (senderSid : String)
    (pl : SignalPayload) : List Delivery :=
  let clients := roomMembers reg pl.roomId
  match clients.find? (fun cid =>
      match getSocket reg cid with
      | some cs => cs.userId == pl.targetUserId
      | none => false) with
  | some tid =>
    [{ toSid := tid
       fromUserId := (getSocket reg senderSid).bind (fun s => s.userId)
       payload := pl.signal }]
  | none => []

/-- Payload of the send-message event. claimedUserId again models an
attacker-supplied identity field that the handler never reads. -/
structure MessagePayload where
  roomId : String
  userName : String
  message : String
  timestamp : String
  claimedUserId : Option String
deriving Repr, DecidableEq

/-- A receive-message delivery: recipient socket id and the emitted
object, whose userId is taken from the sending socket. -/
structure ChatDelivery where
  toSid : String
  userId : Option String
  userName : String
  message : String
  timestamp : String
deriving Repr, DecidableEq

/-- Send-message handler: socket.to(roomId) broadcasts to every room
member except the sender, with userId read from socket.userId and the
display fields copied from the payload. -/
def sendMessageHandler (reg : Registry) (senderSid : String)
    (md : MessagePayload) : List ChatDelivery :=
  ((roomMembers reg md.roomId).filter (fun id => !(id == senderSid))).map
    (fun id =>
      { toSid := id
        userId := (getSocket reg senderSid).bind (fun s => s.userId)
        userName := md.userName
        message := md.message
        timestamp := md.timestamp })

/-! Identifier generation. chars.charAt(i) in JS yields the empty string
when the index is out of range, and Math.floor(Math.random() * 36)
always lands in 0..35; the random draw is modelled as an index stream
rand with the range fact as an explicit hypothesis. -/

/-- Alphabet used by generateRoomCode and generateMeetingId. -/
def chars36 : String := "ABCDEFGHIJKLMNOPQRSTUVWXYZ0123456789"

/-- String.prototype.charAt: the one-character string at the index, or
the empty string out of range. -/
def charAt (s : String) (i : Nat) : String :=
  match s.data.get? i with
  | some c => String.singleton c
  | none => ""

/-- The generation loop shared by generateRoomCode and generateMeetingId:
result starts empty and the character at the drawn index is appended on
each of the len iterations. -/
def genCode (rand : Nat → Nat) : Nat → String
  | 0 => ""
  | n + 1 => genCode rand n ++ charAt chars36 (rand n)

/-- generateRoomCode: ten draws from the 36-symbol alphabet. -/
def generateRoomCode (rand : Nat → Nat) : String := genCode rand 10

/-- generateMeetingId: nine draws from the 36-symbol alphabet. -/
def generateMeetingId (rand : Nat → Nat) : String := genCode rand 9

lemma charAt_length_of_lt {i : Nat} (h : i < 36) :
    (charAt chars36 i).length = 1 := by
  revert h
  revert i
  decide

lemma charAt_mem_of_lt {i : Nat} (h : i < 36) :
    ∀ c ∈ (charAt chars36 i).data, c ∈ chars36.data := by
  revert h
  revert i
  decide

lemma genCode_length (rand : Nat → Nat) (n : Nat)
    (h : ∀ i, rand i < 36) : (genCode rand n).length = n := by
  induction n with
  | zero => rfl
  | succ k ih =>
    simp only [genCode, String.length_append, ih, charAt_length_of_lt (h k)]

lemma genCode_mem (rand : Nat → Nat) (n : Nat)
    (h : ∀ i, rand i < 36) :
    ∀ c ∈ (genCode rand n).data, c ∈ chars36.data := by
  induction n with
  | zero => intro c hc; simp [genCode, String.data] at hc
  | succ k ih =>
    intro c hc
    simp only [genCode, String.data_append, List.mem_append] at hc
    rcases hc with hc | hc
    · exact ih c hc
    · exact charAt_mem_of_lt (h k) c hc

/-! Sample states used by the witness theorems. -/

/-- Registry with two identified sockets and one that has not completed
join-room, all in one room. -/
def wReg : Registry :=
  { sockets :=
      [{ sid := "s1", userId := some "alice", userData := [("name", "Alice")] }
      , { sid := "s2", userId := some "bob", userData := [] }
      , { sid := "s3", userId := none, userData := [] }]
    rooms := [("room1", ["s1", "s2", "s3"])] }

/-- Convenience constructor for concrete meetings in witness states. -/
def mkMeeting (rc : String) (ps : List Participant) (s : Settings)
    (act : Bool) : Meeting :=
  { roomCode := rc
    meetingId := "M1"
    roomName := "Standup"
    hostUserId := "h1"
    hostName := "Host"
    participants := ps
    settings := s
    isActive := act
    startTime := 0
    endTime := none
    isInstant := false
    createdAt := some 0 }

/-- Active host participant for witness states. -/
def pHost : Participant := hostParticipant "h1" "Host" 0

/-- Active non-host participant for witness states. -/
def pGuest : Participant := newJoinParticipant "g1" "Guest" 1

/-- A participant who already left, for witness states. -/
def pGone : Participant :=
  { userId := "p1", userName := "P", joinedAt := 0, leftAt := some 3
    isHost := true, cameraOn := none, micOn := none }

/-- Settings with capacity one, for the capacity witness. -/
def wSettingsCap1 : Settings :=
  { defaultSettings none with maxParticipants := 1 }

/-- Password-protected settings, for the password witness. -/
def wSettingsPw : Settings :=
  { defaultSettings none with password := "secret" }

/-- Authoritative store holding a meeting already at capacity. -/
def wStoreFull : Store :=
  { fs := [("d1", mkMeeting "R1" [pHost] wSettingsCap1 true)], mem := [] }

/-- Authoritative store holding a password-protected meeting. -/
def wStorePw : Store :=
  { fs := [("d2", mkMeeting "R2" [pHost] wSettingsPw true)], mem := [] }

/-- Authoritative store holding a meeting with two active participants. -/
def wStoreTwoFs : Store :=
  { fs := [("d3", mkMeeting "R3" [pHost, pGuest] (defaultSettings none) true)]
    mem := [] }

/-- Fallback store holding a meeting with two active participants. -/
def wStoreTwoMem : Store :=
  { fs := [], mem := [("R4", mkMeeting "R4" [pHost, pGuest] (defaultSettings none) true)] }

/-- Authoritative store whose meeting has a single active participant. -/
def wStoreSoloFs : Store :=
  { fs := [("d5", mkMeeting "R5" [pHost] (defaultSettings none) true)]
    mem := [] }

/-- Fallback store whose meeting has a single active participant. -/
def wStoreSoloMem : Store :=
  { fs := [], mem := [("R6", mkMeeting "R6" [pHost] (defaultSettings none) true)] }

/-- Authoritative store holding an already-terminated meeting: every
participant has left and the record is inactive. -/
def wStoreStale : Store :=
  { fs := [("d7", mkMeeting "R7" [pGone] (defaultSettings none) false)]
    mem := [] }

end MeetingBackend

open MeetingBackend

namespace MeetingBackend

lemma find?_of_filter_eq_singleton {α : Type} (p : α → Bool) :
    ∀ (l : List α) (t : α), l.filter p = [t] → l.find? p = some t := by
  intro l
  induction l with
  | nil => intro t h; simp at h
  | cons a as ih =>
    intro t h
    by_cases hp : p a
    · rw [List.filter_cons_of_pos hp] at h
      rw [List.find?_cons_of_pos as hp]
      exact congrArg some (List.cons.injEq a _ t [] ▸ h).1
    · rw [List.filter_cons_of_neg (by simpa using hp)] at h
      rw [List.find?_cons_of_neg as (by simpa using hp)]
      exact ih t h

lemma find?_of_filter_eq_nil {α : Type} (p : α → Bool) (l : List α)
    (h : l.filter p = []) : l.find? p = none := by
  rw [List.find?_eq_none]
  intro x hx
  exact (List.filter_eq_nil_iff.mp h) x hx

lemma getByRoomCode_fsUpdate (fs : List (String × Meeting)) (rc did : String)
    (m : Meeting) (f : Meeting → Meeting)
    (hf : ∀ mm, (f mm).roomCode = mm.roomCode)
    (h : getByRoomCode fs rc = some (did, m)) :
    getByRoomCode (fsUpdate fs did f) rc = some (did, f m) := by
  induction fs with
  | nil => simp [getByRoomCode] at h
  | cons d ds ih =>
    by_cases hd : (d.2.roomCode == rc) = true
    · rw [getByRoomCode, List.find?_cons_of_pos ds hd] at h
      have hdm : d = (did, m) := Option.some.inj h
      subst hdm
      simp only [fsUpdate, List.map_cons, beq_self_eq_true, if_true]
      rw [getByRoomCode, List.find?_cons_of_pos _ (by simpa [hf m] using hd)]
    · have hd' : (d.2.roomCode == rc) = false := by simpa using hd
      rw [getByRoomCode, List.find?_cons_of_neg ds (by simp [hd'])] at h
      have ih' := ih h
      simp only [fsUpdate, List.map_cons]
      have hhead : ((if (d.1 == did) = true then (d.1, f d.2) else d).2.roomCode == rc) = false := by
        by_cases hdid : (d.1 == did) = true
        · simp [hdid, hf d.2, hd']
        · simp [hdid, hd']
      rw [getByRoomCode, List.find?_cons_of_neg _ (by rw [hhead]; simp)]
      exact ih'

lemma locate_fs_inv (st : Store) (rc did : String) (m : Meeting)
    (h : locateMeeting st true rc = some (some did, m)) :
    getByRoomCode st.fs rc = some (did, m) := by
  unfold locateMeeting at h
  cases hg : getByRoomCode st.fs rc with
  | some p =>
    obtain ⟨a, b⟩ := p
    rw [hg] at h
    simp only [if_true, Option.some.injEq, Prod.mk.injEq] at h
    obtain ⟨ha, hb⟩ := h
    rw [ha, hb]
  | none =>
    rw [hg] at h
    simp at h

lemma locate_mem_inv (st : Store) (fb : Bool) (rc : String) (m : Meeting)
    (h : locateMeeting st fb rc = some (none, m)) :
    memGet st.mem rc = some m := by
  unfold locateMeeting at h
  cases hfb : (if fb then getByRoomCode st.fs rc else none) with
  | some p =>
    obtain ⟨a, b⟩ := p
    rw [hfb] at h
    simp at h
  | none =>
    rw [hfb] at h
    simp only [Option.map_eq_some'] at h
    obtain ⟨x, hx, he⟩ := h
    have hxm : x = m := congrArg Prod.snd he
    rw [hx, hxm]

lemma memGet_memErase (mem : List (String × Meeting)) (rc : String) :
    memGet (memErase mem rc) rc = none := by
  have hfind : (memErase mem rc).find? (fun e => e.1 == rc) = none := by
    rw [List.find?_eq_none]
    intro x hx
    have hmem := List.mem_filter.mp hx
    simpa using hmem.2
  simp [memGet, hfind]

end MeetingBackend

/-- C8: every generated roomCode has length exactly 10 and every
generated meetingId length exactly 9, and each character of either is
one of the 36 symbols A-Z0-9, whenever each random draw lies in the
alphabet range (as Math.floor(Math.random() * 36) always does). -/
theorem roomCode_meetingId_shape (rand : Nat → Nat)
    (h : ∀ i, rand i < 36) :
    (generateRoomCode rand).length = 10 ∧
    (generateMeetingId rand).length = 9 ∧
    (∀ c ∈ (generateRoomCode rand).data, c ∈ chars36.data) ∧
    (∀ c ∈ (generateMeetingId rand).data, c ∈ chars36.data) ∧
    (∀ c ∈ chars36.data, ('A' ≤ c ∧ c ≤ 'Z') ∨ ('0' ≤ c ∧ c ≤ '9')) := by
  refine ⟨genCode_length rand 10 h, genCode_length rand 9 h,
    genCode_mem rand 10 h, genCode_mem rand 9 h, ?_⟩
  decide

/-- Witness for C8 at a concrete draw stream. -/
theorem roomCode_meetingId_shape_witness :
    (generateRoomCode (fun i => i % 36)).length = 10 ∧
    (generateMeetingId (fun i => i % 36)).length = 9 ∧
    (∀ c ∈ (generateRoomCode (fun i => i % 36)).data, c ∈ chars36.data) ∧
    (∀ c ∈ (generateMeetingId (fun i => i % 36)).data, c ∈ chars36.data) ∧
    (∀ c ∈ chars36.data, ('A' ≤ c ∧ c ≤ 'Z') ∨ ('0' ≤ c ∧ c ≤ '9')) :=
  roomCode_meetingId_shape (fun i => i % 36)
    (fun i => Nat.mod_lt i (by decide))

/-- C2: the room-users snapshot handed to a joiner never lists the
querying connection itself (its socket id is filtered out of the source
ids), and every snapshot entry carries a bound, non-empty userId, so a
connection whose join-room has not completed (userId still unset) never
appears. -/
theorem snapshot_excludes_self_and_unidentified
    (reg : Registry) (sid roomId uid : String)
    (ud : List (String × String)) :
    sid ∉ (joinRoomHandler reg sid roomId uid ud).2.1 ∧
    ∀ e ∈ (joinRoomHandler reg sid roomId uid ud).2.2,
      e.1 ≠ none ∧ e.1 ≠ some "" := by
  constructor
  · simp [joinRoomHandler, memberSourceIds, List.mem_filter]
  · intro e he
    simp only [joinRoomHandler, membersOf, List.mem_filter] at he
    have hq := he.2
    cases h1 : e.1 with
    | none => rw [h1] at hq; simp at hq
    | some s =>
      rw [h1] at hq
      simp only [Option.getD_some] at hq
      refine ⟨by simp [h1], fun hcontra => ?_⟩
      have hs : s = "" := Option.some.inj (h1 ▸ hcontra)
      rw [hs] at hq
      simp at hq

/-- C7: when exactly one connection in the room has bound userId equal
to the target, the signal handler delivers the payload, stamped with
the sender socket userId, to that connection alone; when no room member
matches, the handler delivers nothing and reports no error to the
sender. -/
theorem signal_unicast_exact
    (reg : Registry) (senderSid : String) (pl : SignalPayload) (t : String)
    (reg2 : Registry) (senderSid2 : String) (pl2 : SignalPayload) :
    (((roomMembers reg pl.roomId).filter (fun cid =>
        match getSocket reg cid with
        | some cs => cs.userId == pl.targetUserId
        | none => false)) = [t] →
      signalHandler reg senderSid pl =
        [{ toSid := t
           fromUserId := (getSocket reg senderSid).bind (fun s => s.userId)
           payload := pl.signal }]) ∧
    (((roomMembers reg2 pl2.roomId).filter (fun cid =>
        match getSocket reg2 cid with
        | some cs => cs.userId == pl2.targetUserId
        | none => false)) = [] →
      signalHandler reg2 senderSid2 pl2 = []) := by
  constructor
  · intro h
    have hf := find?_of_filter_eq_singleton _ _ _ h
    simp [signalHandler, hf]
  · intro h
    have hf := find?_of_filter_eq_nil _ _ h
    simp [signalHandler, hf]

/-- Witness for C7 on a concrete registry: a unique target receives the
one delivery, an absent target receives none. -/
theorem signal_unicast_exact_witness :
    signalHandler wReg "s1"
      { roomId := "room1", targetUserId := some "bob", signal := "sdp"
        claimedUserId := none } =
      [{ toSid := "s2", fromUserId := some "alice", payload := "sdp" }] ∧
    signalHandler wReg "s1"
      { roomId := "room1", targetUserId := some "carol", signal := "x"
        claimedUserId := none } = [] := by
  have h := signal_unicast_exact wReg "s1"
    { roomId := "room1", targetUserId := some "bob", signal := "sdp"
      claimedUserId := none } "s2" wReg "s1"
    { roomId := "room1", targetUserId := some "carol", signal := "x"
      claimedUserId := none }
  exact ⟨h.1 (by decide), h.2 (by decide)⟩

/-- C10: the userId stamped on every relayed signal and every broadcast
chat message is the one bound to the sending socket at join-room time,
never a payload field: chat payloads sharing a roomId produce the same
recipients and identical delivered userId fields whatever their other
fields, every chat delivery carries the sender socket userId, signal
payloads sharing roomId and targetUserId produce the same recipients
and identical delivered sender ids, and every signal delivery carries
the sender socket userId. -/
theorem sender_identity_from_socket
    (reg : Registry) (sid : String) (p1 p2 : MessagePayload)
    (q1 q2 : SignalPayload) :
    (p1.roomId = p2.roomId →
      (sendMessageHandler reg sid p1).map (fun d => d.toSid) =
        (sendMessageHandler reg sid p2).map (fun d => d.toSid) ∧
      (sendMessageHandler reg sid p1).map (fun d => d.userId) =
        (sendMessageHandler reg sid p2).map (fun d => d.userId)) ∧
    (∀ d ∈ sendMessageHandler reg sid p1,
      d.userId = (getSocket reg sid).bind (fun s => s.userId)) ∧
    (q1.roomId = q2.roomId → q1.targetUserId = q2.targetUserId →
      (signalHandler reg sid q1).map (fun d => d.toSid) =
        (signalHandler reg sid q2).map (fun d => d.toSid) ∧
      (signalHandler reg sid q1).map (fun d => d.fromUserId) =
        (signalHandler reg sid q2).map (fun d => d.fromUserId)) ∧
    (∀ d ∈ signalHandler reg sid q1,
      d.fromUserId = (getSocket reg sid).bind (fun s => s.userId)) := by
  refine ⟨?_, ?_, ?_, ?_⟩
  · intro hroom
    constructor <;> simp [sendMessageHandler, hroom, List.map_map, Function.comp]
  · intro d hd
    simp only [sendMessageHandler, List.mem_map] at hd
    obtain ⟨id, -, rfl⟩ := hd
    rfl
  · intro hroom htgt
    cases hfind : (roomMembers reg q1.roomId).find? (fun cid =>
        match getSocket reg cid with
        | some cs => cs.userId == q1.targetUserId
        | none => false) with
    | none => constructor <;> simp [signalHandler, ← hroom, ← htgt, hfind]
    | some tid => constructor <;> simp [signalHandler, ← hroom, ← htgt, hfind]
  · intro d hd
    simp only [signalHandler] at hd
    cases hfind : (roomMembers reg q1.roomId).find? (fun cid =>
        match getSocket reg cid with
        | some cs => cs.userId == q1.targetUserId
        | none => false) with
    | none => rw [hfind] at hd; simp at hd
    | some tid =>
      rw [hfind] at hd
      simp only [List.mem_singleton] at hd
      rw [hd]

/-- Witness for C10 on a concrete registry: two chat payloads differing
in their claimed identity fields produce the same recipients and the
same stamped userId, and likewise for two signal payloads. -/
theorem sender_identity_from_socket_witness :
    ((sendMessageHandler wReg "s1"
        { roomId := "room1", userName := "Mallory", message := "hi"
          timestamp := "t0", claimedUserId := some "bob" }).map
          (fun d => d.userId) =
      (sendMessageHandler wReg "s1"
        { roomId := "room1", userName := "Alice", message := "hi"
          timestamp := "t0", claimedUserId := none }).map
          (fun d => d.userId)) ∧
    ((signalHandler wReg "s1"
        { roomId := "room1", targetUserId := some "bob", signal := "sdp"
          claimedUserId := some "bob" }).map (fun d => d.fromUserId) =
      (signalHandler wReg "s1"
        { roomId := "room1", targetUserId := some "bob", signal := "sdp"
          claimedUserId := none }).map (fun d => d.fromUserId)) := by
  have h := sender_identity_from_socket wReg "s1"
    { roomId := "room1", userName := "Mallory", message := "hi"
      timestamp := "t0", claimedUserId := some "bob" }
    { roomId := "room1", userName := "Alice", message := "hi"
      timestamp := "t0", claimedUserId := none }
    { roomId := "room1", targetUserId := some "bob", signal := "sdp"
      claimedUserId := some "bob" }
    { roomId := "room1", targetUserId := some "bob", signal := "sdp"
      claimedUserId := none }
  exact ⟨(h.1 rfl).2, (h.2.2.1 rfl rfl).2⟩

/-- C4: a join aimed at a meeting whose live active-participant count
already reaches maxParticipants is answered Forbidden and leaves the
whole store, hence the participant list, untouched; the comparison is
the live filtered count against maxParticipants with greater-or-equal,
so the boundary case count = max is blocked too. -/
theorem join_at_capacity_forbidden
    (st : Store) (fb : Bool) (rc username : String) (pw : Option String)
    (uid : String) (now : Nat) (docId : Option String) (m : Meeting)
    (hrc : rc ≠ "") (hun : username ≠ "")
    (hloc : locateMeeting st fb rc = some (docId, m))
    (hact : m.isActive = true)
    (hpw : m.settings.password = "" ∨ pw = some m.settings.password)
    (hcap : activeCount m ≥ m.settings.maxParticipants) :
    joinHandler st fb rc username pw uid now = (.forbidden, st) := by
  have hrc' : (rc == "") = false := by simpa using hrc
  have hun' : (username == "") = false := by simpa using hun
  have hpw' : (!(m.settings.password == "") &&
      !(some m.settings.password == pw)) = false := by
    rcases hpw with h | h
    · simp [h]
    · simp [h]
  simp [joinHandler, hrc', hun', hloc, hact, hpw', hcap]

/-- Witness for C4: the second join into a capacity-one meeting is
refused and the store is unchanged (count equals max, so the
greater-or-equal gate fires). -/
theorem join_at_capacity_forbidden_witness :
    joinHandler wStoreFull true "R1" "Bob" none "u2" 5 =
      (.forbidden, wStoreFull) :=
  join_at_capacity_forbidden wStoreFull true "R1" "Bob" none "u2" 5
    (some "d1") (mkMeeting "R1" [pHost] wSettingsCap1 true)
    (by decide) (by decide) (by decide) (by decide)
    (Or.inl (by decide)) (by decide)

/-- C5: a join supplying a password different from the non-empty stored
settings password (plain string comparison) is answered Unauthorized
with the store, hence the participant list, untouched. -/
theorem join_wrong_password_unauthorized
    (st : Store) (fb : Bool) (rc username : String) (pw : Option String)
    (uid : String) (now : Nat) (docId : Option String) (m : Meeting)
    (hrc : rc ≠ "") (hun : username ≠ "")
    (hloc : locateMeeting st fb rc = some (docId, m))
    (hact : m.isActive = true)
    (hset : m.settings.password ≠ "")
    (hbad : pw ≠ some m.settings.password) :
    joinHandler st fb rc username pw uid now = (.unauthorized, st) := by
  have hrc' : (rc == "") = false := by simpa using hrc
  have hun' : (username == "") = false := by simpa using hun
  have hset' : (m.settings.password == "") = false := by simpa using hset
  have hbad' : (some m.settings.password == pw) = false := by
    simpa using fun hcontra => hbad hcontra.symm
  simp [joinHandler, hrc', hun', hloc, hact, hset', hbad']

/-- Witness for C5: joining a password-protected meeting with a wrong
password is refused without mutation. -/
theorem join_wrong_password_unauthorized_witness :
    joinHandler wStorePw true "R2" "Bob" (some "wrong") "u2" 5 =
      (.unauthorized, wStorePw) :=
  join_wrong_password_unauthorized wStorePw true "R2" "Bob" (some "wrong")
    "u2" 5 (some "d2") (mkMeeting "R2" [pHost] wSettingsPw true)
    (by decide) (by decide) (by decide) (by decide) (by decide) (by decide)

/-- C1 evaluation at the failing input: create then one join, with the
authoritative store unreachable so the fallback backend holds the
record. The join succeeds, yet the in-memory record ends up with an
active participant count of three, because the handler pushes the new
participant onto the shared record object and the catch block, entered
when Meeting.update throws, pushes the very same participant again. On
the authoritative backend the same sequence yields the claimed count of
two. -/
theorem join_fallback_double_append :
    (joinHandler
        (createHandler { fs := [], mem := [] } false "Standup" "Alice" none
          false "RC00000000" "MID000000" "host-1" "d1" 0).2
        false "RC00000000" "Bob" none "u2" 1).1 =
      .joined "u2" (defaultSettings none) "Standup" "Alice" ∧
    (memGet
        (joinHandler
          (createHandler { fs := [], mem := [] } false "Standup" "Alice" none
            false "RC00000000" "MID000000" "host-1" "d1" 0).2
          false "RC00000000" "Bob" none "u2" 1).2.mem
        "RC00000000").map activeCount = some 3 ∧
    (getByRoomCode
        (joinHandler
          (createHandler { fs := [], mem := [] } true "Standup" "Alice" none
            false "RC00000000" "MID000000" "host-1" "d1" 0).2
          true "RC00000000" "Bob" none "u2" 1).2.fs
        "RC00000000").map (fun d => activeCount d.2) = some 2 := by
  refine ⟨?_, ?_, ?_⟩ <;> decide

/-- C6: an end request by anyone other than the recorded hostUserId is
answered Forbidden with the store untouched; an end request by the host
terminates the meeting regardless of how many participants are still
active — on the authoritative backend the stored record becomes
inactive with endTime stamped, on the fallback backend the record is
deleted. -/
theorem end_requires_host
    (st1 : Store) (fb1 : Bool) (rid1 uid1 : String) (now1 : Nat)
    (d1 : Option String) (m1 : Meeting)
    (st2 : Store) (rid2 uid2 : String) (now2 : Nat) (did2 : String)
    (m2 : Meeting)
    (st3 : Store) (fb3 : Bool) (rid3 uid3 : String) (now3 : Nat)
    (m3 : Meeting) :
    (locateMeeting st1 fb1 rid1 = some (d1, m1) → uid1 ≠ m1.hostUserId →
      endHandler st1 fb1 rid1 uid1 now1 = (.forbidden, st1)) ∧
    (locateMeeting st2 true rid2 = some (some did2, m2) →
      uid2 = m2.hostUserId →
      (endHandler st2 true rid2 uid2 now2).1 = .ended ∧
      getByRoomCode (endHandler st2 true rid2 uid2 now2).2.fs rid2 =
        some (did2, { m2 with isActive := false, endTime := some now2 })) ∧
    (locateMeeting st3 fb3 rid3 = some (none, m3) → uid3 = m3.hostUserId →
      (endHandler st3 fb3 rid3 uid3 now3).1 = .ended ∧
      memGet (endHandler st3 fb3 rid3 uid3 now3).2.mem rid3 = none) := by
  refine ⟨?_, ?_, ?_⟩
  · intro hloc hnh
    have hbeq : (m1.hostUserId == uid1) = false := by
      simpa using fun hcontra => hnh hcontra.symm
    simp [endHandler, hloc, hbeq]
  · intro hloc huid
    have hfs := locate_fs_inv st2 rid2 did2 m2 hloc
    have hend : endHandler st2 true rid2 uid2 now2 =
        (.ended, { st2 with fs := fsUpdate st2.fs did2 (fun mm => { mm with isActive := false, endTime := some now2 }) }) := by
      simp [endHandler, hloc, huid]
    refine ⟨by rw [hend], ?_⟩
    rw [hend]
    exact getByRoomCode_fsUpdate st2.fs rid2 did2 m2
      (fun mm => { mm with isActive := false, endTime := some now2 })
      (fun mm => rfl) hfs
  · intro hloc huid
    have hend : endHandler st3 fb3 rid3 uid3 now3 =
        (.ended, { st3 with mem := memErase st3.mem rid3 }) := by
      simp [endHandler, hloc, huid]
    refine ⟨by rw [hend], ?_⟩
    rw [hend]
    exact memGet_memErase st3.mem rid3

/-- Witness for C6 on concrete stores: a non-host end is refused, a
host end terminates the authoritative record while a second participant
is still active, and a host end deletes the fallback record. -/
theorem end_requires_host_witness :
    endHandler wStoreTwoFs true "R3" "g1" 9 = (.forbidden, wStoreTwoFs) ∧
    (endHandler wStoreTwoFs true "R3" "h1" 9).1 = .ended ∧
    getByRoomCode (endHandler wStoreTwoFs true "R3" "h1" 9).2.fs "R3" =
      some ("d3", { mkMeeting "R3" [pHost, pGuest] (defaultSettings none) true
                    with isActive := false, endTime := some 9 }) ∧
    (endHandler wStoreTwoMem false "R4" "h1" 9).1 = .ended ∧
    memGet (endHandler wStoreTwoMem false "R4" "h1" 9).2.mem "R4" = none := by
  have h := end_requires_host wStoreTwoFs true "R3" "g1" 9 (some "d3")
    (mkMeeting "R3" [pHost, pGuest] (defaultSettings none) true)
    wStoreTwoFs "R3" "h1" 9 "d3"
    (mkMeeting "R3" [pHost, pGuest] (defaultSettings none) true)
    wStoreTwoMem false "R4" "h1" 9
    (mkMeeting "R4" [pHost, pGuest] (defaultSettings none) true)
  have h2 := h.2.1 (by decide) (by decide)
  have h3 := h.2.2 (by decide) (by decide)
  exact ⟨h.1 (by decide) (by decide), h2.1, h2.2, h3.1, h3.2⟩

/-- C3: when a leave request stamps leftAt on a participant and the
live active count then reaches zero, the handler terminates the meeting
for the backend that holds the record — authoritative: the stored
document keeps the stamped participant list but becomes inactive with
endTime set; fallback: the record is deleted — and a subsequent get for
that room code answers NotFound in either case. -/
theorem last_leave_terminates
    (stA : Store) (ridA uidA : String) (nowA : Nat) (didA : String)
    (mA : Meeting)
    (stB : Store) (ridB uidB : String) (nowB : Nat) (mB : Meeting) :
    (getByRoomCode stA.fs ridA = some (didA, mA) →
      mA.participants.any (fun p => p.userId == uidA) = true →
      activeCount { mA with
                    participants := setLeftFirst mA.participants uidA nowA } = 0 →
      getByRoomCode (leaveHandler stA true ridA uidA nowA).2.fs ridA =
        some (didA, { mA with
                      participants := setLeftFirst mA.participants uidA nowA
                      isActive := false, endTime := some nowA }) ∧
      getHandler (leaveHandler stA true ridA uidA nowA).2 true ridA =
        .notFound) ∧
    (memGet stB.mem ridB = some mB →
      mB.participants.any (fun p => p.userId == uidB) = true →
      activeCount { mB with
                    participants := setLeftFirst mB.participants uidB nowB } = 0 →
      memGet (leaveHandler stB false ridB uidB nowB).2.mem ridB = none ∧
      getHandler (leaveHandler stB false ridB uidB nowB).2 false ridB =
        .notFound) := by
  constructor
  · intro hg hfound hzero
    have hlv : (leaveHandler stA true ridA uidA nowA).2 =
        { stA with fs := fsUpdate
                    (fsUpdate stA.fs didA (fun mm => { mm with
                      participants := setLeftFirst mA.participants uidA nowA }))
                    didA (fun mm => { mm with
                      isActive := false, endTime := some nowA }) } := by
      simp [leaveHandler, hg, hfound, hzero]
    have h1 := getByRoomCode_fsUpdate stA.fs ridA didA mA
      (fun mm => { mm with
        participants := setLeftFirst mA.participants uidA nowA })
      (fun mm => rfl) hg
    have h2 := getByRoomCode_fsUpdate _ ridA didA _
      (fun mm => { mm with isActive := false, endTime := some nowA })
      (fun mm => rfl) h1
    refine ⟨by rw [hlv]; exact h2, ?_⟩
    rw [hlv]
    simp [getHandler, locateMeeting, h2]
  · intro hg hfound hzero
    have hlv : (leaveHandler stB false ridB uidB nowB).2 =
        { stB with mem := memErase
                    (memUpdate stB.mem ridB (fun mm => { mm with
                      participants := setLeftFirst mB.participants uidB nowB }))
                    ridB } := by
      simp [leaveHandler, hg, hfound, hzero]
    refine ⟨by rw [hlv]; exact memGet_memErase _ _, ?_⟩
    rw [hlv]
    simp [getHandler, locateMeeting, memGet_memErase]

/-- Witness for C3 on concrete stores: the sole participant leaves; the
authoritative record becomes inactive and get answers NotFound; the
fallback record disappears and get answers NotFound. -/
theorem last_leave_terminates_witness :
    getByRoomCode (leaveHandler wStoreSoloFs true "R5" "h1" 7).2.fs "R5" =
      some ("d5", { mkMeeting "R5" [pHost] (defaultSettings none) true with
                    participants := setLeftFirst [pHost] "h1" 7
                    isActive := false, endTime := some 7 }) ∧
    getHandler (leaveHandler wStoreSoloFs true "R5" "h1" 7).2 true "R5" =
      .notFound ∧
    memGet (leaveHandler wStoreSoloMem false "R6" "h1" 7).2.mem "R6" = none ∧
    getHandler (leaveHandler wStoreSoloMem false "R6" "h1" 7).2 false "R6" =
      .notFound := by
  have h := last_leave_terminates wStoreSoloFs "R5" "h1" 7 "d5"
    (mkMeeting "R5" [pHost] (defaultSettings none) true)
    wStoreSoloMem "R6" "h1" 7
    (mkMeeting "R6" [pHost] (defaultSettings none) true)
  have hA := h.1 (by decide) (by decide) (by decide)
  have hB := h.2 (by decide) (by decide) (by decide)
  exact ⟨hA.1, hA.2, hB.1, hB.2⟩

/-- Counterexample for C9 as stated: in this store the located meeting
has no participant with userId ghost, yet the leave request mutates the
stored state — every participant had already left, so the handler
re-runs the termination update and rewrites endTime to the new
timestamp. -/
theorem leave_unknown_user_mutates :
    getByRoomCode wStoreStale.fs "R7" =
      some ("d7", mkMeeting "R7" [pGone] (defaultSettings none) false) ∧
    (mkMeeting "R7" [pGone] (defaultSettings none) false).participants.all
      (fun p => !(p.userId == "ghost")) = true ∧
    (leaveHandler wStoreStale true "R7" "ghost" 5).2 ≠ wStoreStale := by
  refine ⟨by decide, by decide, by decide⟩

/-- C9 amended: leave always answers success; nothing is modified when
the consulted backend has no record under the room code; and nothing is
modified when the located record has no participant with the given
userId, provided its live active count is nonzero — when that count is
already zero the handler re-applies the termination for that backend
even though the userId matched nobody. -/
theorem leave_success_and_mutation_bounds
    (st0 : Store) (fb0 : Bool) (rid0 uid0 : String) (now0 : Nat)
    (st1 : Store) (rid1 uid1 : String) (now1 : Nat)
    (st2 : Store) (rid2 uid2 : String) (now2 : Nat)
    (st3 : Store) (rid3 uid3 : String) (now3 : Nat) (did3 : String)
    (m3 : Meeting)
    (st4 : Store) (rid4 uid4 : String) (now4 : Nat) (m4 : Meeting) :
    (leaveHandler st0 fb0 rid0 uid0 now0).1 = .success ∧
    (getByRoomCode st1.fs rid1 = none →
      (leaveHandler st1 true rid1 uid1 now1).2 = st1) ∧
    (memGet st2.mem rid2 = none →
      (leaveHandler st2 false rid2 uid2 now2).2 = st2) ∧
    (getByRoomCode st3.fs rid3 = some (did3, m3) →
      m3.participants.any (fun p => p.userId == uid3) = false →
      activeCount m3 ≠ 0 →
      (leaveHandler st3 true rid3 uid3 now3).2 = st3) ∧
    (memGet st4.mem rid4 = some m4 →
      m4.participants.any (fun p => p.userId == uid4) = false →
      activeCount m4 ≠ 0 →
      (leaveHandler st4 false rid4 uid4 now4).2 = st4) := by
  refine ⟨?_, ?_, ?_, ?_, ?_⟩
  · cases h : (leaveHandler st0 fb0 rid0 uid0 now0).1
    rfl
  · intro hg
    simp [leaveHandler, hg]
  · intro hg
    simp [leaveHandler, hg]
  · intro hg hfound hcount
    have hc : (activeCount m3 == 0) = false := by simpa using hcount
    simp [leaveHandler, hg, hfound, hc]
  · intro hg hfound hcount
    have hc : (activeCount m4 == 0) = false := by simpa using hcount
    simp [leaveHandler, hg, hfound, hc]

/-- Witness for the amended C9 on concrete stores: success on a normal
leave, no mutation for an unknown room on either backend, and no
mutation for an unknown participant of a live meeting on either
backend. -/
theorem leave_success_and_mutation_bounds_witness :
    (leaveHandler wStoreSoloFs true "R5" "h1" 7).1 = .success ∧
    (leaveHandler { fs := [], mem := [] } true "NOPE" "u" 1).2 =
      { fs := [], mem := [] } ∧
    (leaveHandler { fs := [], mem := [] } false "NOPE" "u" 1).2 =
      { fs := [], mem := [] } ∧
    (leaveHandler wStoreTwoFs true "R3" "zz" 8).2 = wStoreTwoFs ∧
    (leaveHandler wStoreTwoMem false "R4" "zz" 8).2 = wStoreTwoMem := by
  have h := leave_success_and_mutation_bounds wStoreSoloFs true "R5" "h1" 7
    { fs := [], mem := [] } "NOPE" "u" 1
    { fs := [], mem := [] } "NOPE" "u" 1
    wStoreTwoFs "R3" "zz" 8 "d3"
    (mkMeeting "R3" [pHost, pGuest] (defaultSettings none) true)
    wStoreTwoMem "R4" "zz" 8
    (mkMeeting "R4" [pHost, pGuest] (defaultSettings none) true)
  exact ⟨h.1, h.2.1 (by decide), h.2.2.1 (by decide),
    h.2.2.2.1 (by decide) (by decide) (by decide),
    h.2.2.2.2 (by decide) (by decide) (by decide)⟩
